import Mathlib

/-!
# Verification of the MineSpinePreviewer asset pipeline and debug extractor

Shallow embedding of the batch loader in `src/services/spineService.ts`
(`SpineLoaderService.loadSpineFromFiles` / `loadSingleSpine`) and of the
debug renderer in `src/components/SpineCanvas.tsx` (`renderDebug`).

Conventions of the embedding:
* JavaScript strings are Lean `String`s; `String.prototype.endsWith`,
  `String.prototype.includes`, first-occurrence `String.prototype.replace`
  with a string pattern, and the anchored regex replacements `\.skel$` /
  `\.atlas$` are re-implemented below on `List Char`.
* The `Map` of preloaded images is an association list in insertion order;
  `Map.set` keeps the position of an existing key (JS semantics).
* Image decoding is asynchronous in the source (`img.onload`); the pool is
  therefore built following an explicit completion schedule `sched` listing
  the indices of the raster files in the order their decodes complete.
  Each loaded image is tagged with its index as an identity token (the
  source compares `HTMLImageElement` objects by reference).
* Promise rejection is `Except.error`; the first settled rejection wins,
  matching the behaviour of the `new Promise` executor in the source.
* In a successfully assembled model every atlas page received its texture
  from the image found by the tiered lookup, so `page.baseTexture.resource
  .source` is exactly that image; the `textureInfo` loop of the source is
  embedded accordingly.
-/

namespace MSP

/-- Is `p` a prefix of `s`? (character-by-character). -/
def isPre : List Char → List Char → Bool
  | [], _ => true
  | _ :: _, [] => false
  | a :: as, b :: bs => a == b && isPre as bs

/-- JS `s.endsWith p`. -/
def strEnds (s p : String) : Bool :=
  isPre p.data.reverse s.data.reverse

/-- Does `pat` occur inside `s` (JS `s.includes pat`), on character lists. -/
def containsB (pat : List Char) : List Char → Bool
  | [] => isPre pat []
  | c :: t => isPre pat (c :: t) || containsB pat t

/-- JS `name.includes path`. -/
def containsStr (name path : String) : Bool :=
  containsB path.data name.data

/-- JS first-occurrence replacement `s.replace(pat, "")` with a
plain-string pattern: remove the first occurrence of `pat`, leave `s`
unchanged when `pat` does not occur. -/
def replF (pat : List Char) : List Char → List Char
  | [] => []
  | c :: t => if isPre pat (c :: t) then (c :: t).drop pat.length else c :: replF pat t

/-- First-occurrence removal on `String`. -/
def replFirstStr (pat s : String) : String :=
  ⟨replF pat.data s.data⟩

/-- JS regex replacement anchored at the end of the string by an empty
replacement: drop the suffix `pat` when present (used for the patterns
`\.skel$` and `\.atlas$`). -/
def stripEnd (pat s : String) : String :=
  if strEnds s pat then ⟨s.data.take (s.data.length - pat.data.length)⟩ else s

/-- Embedding of JS `String.prototype.split` at the dot separator, used
by `getExtension` from the file helpers. -/
def splitDots : List Char → List (List Char)
  | [] => [[]]
  | c :: t =>
    if c == '.' then [] :: splitDots t
    else
      match splitDots t with
      | [] => [[c]]
      | h :: rest => (c :: h) :: rest

/-- Lower-cased suffix after the last dot of a file name. -/
def getExtension (s : String) : String :=
  ⟨((splitDots s.data).getLastD []).map Char.toLower⟩

/-- Decoded raster content of a file: the dimensions the platform image
decoder reports and whether decoding succeeds (the load event vs the error event). -/
structure ImgData where
  width : Nat
  height : Nat
  ok : Bool
deriving DecidableEq, Repr

/-- One page declared by an atlas descriptor: the texture path line handed
to the texture-loading callback (which is also the page's `name` in the
parsed `TextureAtlas`) and the page's own declared dimensions. -/
structure AtlasPage where
  path : String
  declWidth : Nat
  declHeight : Nat
deriving DecidableEq, Repr

/-- Result of running the external `SkeletonBinary` decoder on a file's
bytes: success flag, the rejection message on failure, and the declared
animation and skin name lists on success. -/
structure SkelData where
  ok : Bool
  err : String
  animations : List String
  skins : List String
deriving DecidableEq, Repr

/-- Embedding of `UploadedFile` from `src/types.ts`, together with the
content the pipeline can extract from its bytes depending on how it is
read. -/
structure UFile where
  name : String
  extension : String
  size : Nat
  img : ImgData
  atlas : List AtlasPage
  skel : SkelData
deriving DecidableEq, Repr

/-- A preloaded image held by the pool: identity token `id` (reference
identity of the `HTMLImageElement`), decoded dimensions, and the original
file byte size stored next to it. -/
structure PoolVal where
  id : Nat
  width : Nat
  height : Nat
  size : Nat
deriving DecidableEq, Repr

/-- The `loadedImages` map: an association list in insertion order. -/
abbrev Pool := List (String × PoolVal)

/-- JS `Map.prototype.set`: overwrite in place when the key exists
(keeping its insertion position), append otherwise. -/
def mapSet (m : Pool) (k : String) (v : PoolVal) : Pool :=
  match m with
  | [] => [(k, v)]
  | e :: rest => if e.1 == k then (k, v) :: rest else e :: mapSet rest k v

/-- The raster files of a batch:
those whose extension is png, jpg or jpeg. -/
def imageFilesOf (files : List UFile) : List UFile :=
  files.filter fun f => f.extension == "png" || f.extension == "jpg" || f.extension == "jpeg"

/-- The image preload pool. `sched` lists indices into `imageFilesOf
files` in the order the asynchronous decodes complete (a permutation of
all indices once every decode has settled). A file whose decode fails is
logged and skipped; a successful decode stores the image under the file
name. -/
def decodeImages (files : List UFile) (sched : List Nat) : Pool :=
  let imgs := imageFilesOf files
  sched.foldl
    (fun pool i =>
      match imgs[i]? with
      | some f => if f.img.ok then mapSet pool f.name ⟨i, f.img.width, f.img.height, f.size⟩ else pool
      | none => pool)
    []

/-- The completion schedule in which decodes finish in submission order. -/
def inOrderSched (files : List UFile) : List Nat :=
  List.range (imageFilesOf files).length

/-- First loop of the texture lookup in `loadSingleSpine`: a single pass
accepts an entry by exact key equality *or* by either-direction suffix
match (name equals path, name ends with path, path ends with name),
breaking at the first hit. -/
def matches1 (name path : String) : Bool :=
  name == path || strEnds name path || strEnds path name

/-- The texture reference resolver of `loadSingleSpine`: one combined
exact-or-suffix pass over the pool in insertion order, then a substring
fallback pass (name contains path as a substring). -/
def findImage (pool : Pool) (path : String) : Option (String × PoolVal) :=
  match pool.find? (fun e => matches1 e.1 path) with
  | some e => some e
  | none => pool.find? (fun e => containsStr e.1 path)

/-- One `textureInfo` entry pushed for an atlas page (name, the backing
image decoded dimensions, original file byte size). -/
structure TexEntry where
  name : String
  width : Nat
  height : Nat
  size : Nat
deriving DecidableEq, Repr

/-- Embedding of `SpineModel` as produced by the batch loader. -/
structure Model where
  name : String
  animations : List String
  skins : List String
  textureInfo : List TexEntry
deriving DecidableEq, Repr

/-- The reverse lookup of the `textureInfo` loop: scan the pool values in
insertion order for the value holding this very image (reference
identity, modelled by the `id` token) and take its stored byte size,
`0` when none matches. -/
def sizeById (pool : Pool) (id : Nat) : Nat :=
  match pool.find? (fun e => e.2.id == id) with
  | some e => e.2.size
  | none => 0

/-- Page-by-page texture resolution of one atlas, as driven by the
`TextureAtlas` constructor: the callback runs once per page in order; a
page whose path matches no pool entry rejects the promise (first
rejection wins). On success each page carries the found image, from
which the `textureInfo` entry for that page is produced (`page.name`,
the backing image's dimensions, and the byte size recovered by the
reverse identity scan). -/
def resolvePages (pool : Pool) : List AtlasPage → Except String (List TexEntry)
  | [] => .ok []
  | p :: rest =>
    match findImage pool p.path with
    | none => .error ("无法找到纹理图片: " ++ p.path)
    | some e =>
      match resolvePages pool rest with
      | .error msg => .error msg
      | .ok l => .ok (⟨p.path, e.2.width, e.2.height, sizeById pool e.2.id⟩ :: l)

/-- Embedding of `loadSingleSpine`: parse the atlas (resolving every page against the
shared pool), then decode the skeleton binary; on success build the
model, whose name strips the FIRST occurrence
of the substring .skel from the skeleton file name. -/
def loadSingleSpine (skelFile atlasFile : UFile) (pool : Pool) : Except String Model :=
  match resolvePages pool atlasFile.atlas with
  | .error e => .error e
  | .ok tex =>
    if skelFile.skel.ok then
      .ok ⟨replFirstStr ".skel" skelFile.name, skelFile.skel.animations, skelFile.skel.skins, tex⟩
    else
      .error skelFile.skel.err

/-- The skeleton files of a batch: those with extension skel. -/
def skelFilesOf (files : List UFile) : List UFile :=
  files.filter fun f => f.extension == "skel"

/-- One iteration of the batch loop for a skeleton file: derive the base
name with the anchored `\.skel$` replacement, look for an atlas file
whose `\.atlas$`-stripped name equals it exactly, and run
`loadSingleSpine` on the pair; failures become the recorded error
strings of the source. -/
def itemOutcome (files : List UFile) (pool : Pool) (sf : UFile) : Except String Model :=
  let baseName := stripEnd ".skel" sf.name
  match files.find? (fun f => f.extension == "atlas" && stripEnd ".atlas" f.name == baseName) with
  | none => .error ("找不到与 " ++ sf.name ++ " 匹配的 .atlas 文件")
  | some af =>
    match loadSingleSpine sf af pool with
    | .ok m => .ok m
    | .error e => .error ("加载模型 " ++ baseName ++ " 失败: " ++ e)

/-- The success projection of an item outcome. -/
def okOf : Except String Model → Option Model
  | .ok m => some m
  | .error _ => none

/-- The recorded-error projection of an item outcome. -/
def errOf : Except String Model → Option String
  | .ok _ => none
  | .error e => some e

/-- The sequential batch loop: models are appended to the success list
and error messages to the error list in skeleton-file order. -/
def processSkels (files : List UFile) (pool : Pool) : List UFile → List Model × List String
  | [] => ([], [])
  | sf :: rest =>
    match itemOutcome files pool sf with
    | .ok m =>
      let r := processSkels files pool rest
      (m :: r.1, r.2)
    | .error e =>
      let r := processSkels files pool rest
      (r.1, e :: r.2)

/-- The fatal error thrown when the batch holds no `.skel` file. -/
def noSkelMsg : String :=
  "未找到 .skel 二进制文件。请确保上传了 Spine 3.8 格式的导出文件。"

/-- Aggregate message of a totally failed batch: the newline join of the
recorded errors, or the generic message when that join is empty. -/
def aggregateMsg (errors : List String) : String :=
  let j := String.intercalate "\n" errors
  if j == "" then "无法加载任何模型。" else j

/-- Embedding of `SpineLoaderService.loadSpineFromFiles` (the batch
orchestrator):
fail when no skeleton file exists, preload the raster files once (under
completion schedule `sched`), process each skeleton file sequentially,
and either return the non-empty success list or throw the aggregate
error. -/
def loadSpineFromFiles (files : List UFile) (sched : List Nat) : Except String (List Model) :=
  let skelFiles := skelFilesOf files
  if skelFiles.isEmpty then
    .error noSkelMsg
  else
    let pool := decodeImages files sched
    let r := processSkels files pool skelFiles
    if r.1.isEmpty then .error (aggregateMsg r.2) else .ok r.1

/-- The models the batch loop succeeds on, in skeleton-file order. -/
def successesOf (files : List UFile) (sched : List Nat) : List Model :=
  (skelFilesOf files).filterMap fun sf => okOf (itemOutcome files (decodeImages files sched) sf)

/-- The per-item error messages the batch loop records, in skeleton-file
order. -/
def itemErrors (files : List UFile) (sched : List Nat) : List String :=
  (skelFilesOf files).filterMap fun sf => errOf (itemOutcome files (decodeImages files sched) sf)

/-! ### Concrete instances used by counterexamples and witnesses -/

/-- A raster file as produced by `processFiles` (extension derived from
the name) whose decode succeeds with the given dimensions. -/
def mkImgFile (n : String) (w h sz : Nat) : UFile :=
  ⟨n, getExtension n, sz, ⟨w, h, true⟩, [], ⟨false, "", [], []⟩⟩

/-- A skeleton file whose binary decodes successfully. -/
def mkSkelFile (n : String) (anims skins : List String) : UFile :=
  ⟨n, getExtension n, 0, ⟨0, 0, false⟩, [], ⟨true, "", anims, skins⟩⟩

/-- An atlas file declaring the given pages. -/
def mkAtlasFile (n : String) (pages : List AtlasPage) : UFile :=
  ⟨n, getExtension n, 0, ⟨0, 0, false⟩, pages, ⟨false, "", [], []⟩⟩

/-- Pool in which an earlier-inserted key suffix-matches a path that a
later key matches exactly. -/
def c1pool : Pool := [("ahead.png", ⟨0, 30, 30, 300⟩), ("head.png", ⟨1, 50, 50, 500⟩)]

/-- A one-entry prefix pool that matches nothing relevant. -/
def c1pre : Pool := [("zzz.jpg", ⟨7, 1, 1, 1⟩)]

/-- Batch of the partial-success scenario: the pair for a assembles, the
pair for b references a texture matching no preloaded image. -/
def c2files : List UFile :=
  [mkSkelFile "a.skel" ["idle"] ["default"],
   mkSkelFile "b.skel" ["run"] ["default"],
   mkAtlasFile "a.atlas" [⟨"a.png", 64, 64⟩],
   mkAtlasFile "b.atlas" [⟨"missing.png", 32, 32⟩],
   mkImgFile "a.png" 64 64 1234]

/-- The single model the partial-success batch yields. -/
def c2model : Model := ⟨"a", ["idle"], ["default"], [⟨"a.png", 64, 64, 1234⟩]⟩

/-- Batch holding an atlas and a raster file but no skeleton file. -/
def c3files : List UFile :=
  [mkAtlasFile "a.atlas" [⟨"a.png", 64, 64⟩], mkImgFile "a.png" 64 64 10]

/-- Two raster files, both decoding successfully. -/
def c4files : List UFile := [mkImgFile "a.png" 10 10 100, mkImgFile "b.png" 20 20 200]

/-- Two distinctly named raster files for the in-order witness. -/
def c4wfiles : List UFile := [mkImgFile "x.png" 1 2 3, mkImgFile "y.png" 4 5 6]

/-- One-image pool backing a one-page atlas. -/
def c5pool : Pool := [("page.png", ⟨0, 128, 256, 999⟩)]

/-- Skeleton file of the texture-info witness. -/
def c5skel : UFile := mkSkelFile "m.skel" ["anim"] ["skin"]

/-- Atlas file of the texture-info witness. -/
def c5atlas : UFile := mkAtlasFile "m.atlas" [⟨"page.png", 1, 2⟩]

/-- Model assembled from `c5skel`, `c5atlas` and `c5pool`. -/
def c5model : Model := ⟨"m", ["anim"], ["skin"], [⟨"page.png", 128, 256, 999⟩]⟩

/-- Batch whose skeleton file contains the substring .skel before its
trailing extension. -/
def c6files : List UFile :=
  [mkSkelFile "a.skelly.skel" [] [], mkAtlasFile "a.skelly.atlas" []]

/-- The model assembled from `c6files`. -/
def c6model : Model := ⟨"aly.skel", [], [], []⟩

/-- An ordinary one-pair batch. -/
def c6wfiles : List UFile := [mkSkelFile "w.skel" [] [], mkAtlasFile "w.atlas" []]

/-- The model assembled from `c6wfiles`. -/
def c6wmodel : Model := ⟨"w", [], [], []⟩

/-- Batch with a single skeleton file and no atlas: every pair fails. -/
def c8files : List UFile := [mkSkelFile "lone.skel" [] []]

/-- Batch with a succeeding pair for a and a failing pair for b. -/
def c10files : List UFile :=
  [mkSkelFile "a.skel" ["idle"] ["default"],
   mkSkelFile "b.skel" [] [],
   mkAtlasFile "a.atlas" [⟨"a.png", 8, 8⟩],
   mkImgFile "a.png" 16 16 42]

/-- The single model the order-preservation batch yields. -/
def c10model : Model := ⟨"a", ["idle"], ["default"], [⟨"a.png", 16, 16, 42⟩]⟩

/-! ### Debug geometry extractor (renderDebug in SpineCanvas.tsx)

Coordinates are modelled over the reals; the source computes in IEEE
floating point, with the square root provided by the platform. The
graphics object is a command list; every drawing method appends its
command and clear resets the list. -/

/-- Embedding of `SpineDebugConfig` from `src/types.ts`: the seven
visualization category toggles. -/
structure SpineDebugConfig where
  bones : Bool
  regions : Bool
  meshHull : Bool
  meshTriangles : Bool
  clipping : Bool
  paths : Bool
  boundingBoxes : Bool

/-- A bone of the live pose as `renderDebug` reads it: world position,
rest length, and the two world-transform entries `a` and `c` used for the
direction and scale of the drawn bone. -/
structure Bone where
  worldX : ℝ
  worldY : ℝ
  length : ℝ
  a : ℝ
  c : ℝ

/-- An attachment as the extractor dispatches on it; each variant carries
the world vertices that the external runtime's per-attachment
`computeWorldVertices` routine yields for the current pose (the region
variant always produces four corners). -/
inductive Attachment where
  | region (p0 p1 p2 p3 : ℝ × ℝ)
  | mesh (wv : List (ℝ × ℝ)) (hullLength : Nat) (triangles : List Nat)
  | clipping (wv : List (ℝ × ℝ))
  | path (wv : List (ℝ × ℝ)) (closed : Bool)
  | boundingBox (wv : List (ℝ × ℝ))

/-- A slot with its active attachment, if any. -/
structure Slot where
  attachment : Option Attachment

/-- The live pose as `renderDebug` reads it. -/
structure Skeleton where
  bones : List Bone
  slots : List Slot

/-- One drawing command issued on the graphics object. -/
inductive GCmd where
  | lineStyle (width : ℝ) (color : Nat) (alpha : ℝ)
  | beginFill (color : Nat) (alpha : ℝ)
  | moveTo (x y : ℝ)
  | lineTo (x y : ℝ)
  | closePath
  | endFill
  | drawCircle (x y r : ℝ)

/-- `boneBaseWidth` constant of `renderDebug`. -/
noncomputable def boneBaseWidth : ℝ := 8

/-- The bone transform scale `Math.sqrt(a * a + c * c)`. -/
noncomputable def scaleOf (b : Bone) : ℝ :=
  Real.sqrt (b.a * b.a + b.c * b.c)

/-- Horizontal component of the half-width offset perpendicular to the
bone's direction (zero when the transform scale is not positive). -/
noncomputable def perX (b : Bone) : ℝ :=
  if 0 < scaleOf b then -(b.c / scaleOf b) * (boneBaseWidth / 2) else 0

/-- Vertical component of the half-width offset perpendicular to the
bone's direction. -/
noncomputable def perY (b : Bone) : ℝ :=
  if 0 < scaleOf b then (b.a / scaleOf b) * (boneBaseWidth / 2) else 0

/-- x coordinate of the bone tip. -/
noncomputable def tipX (b : Bone) : ℝ := b.worldX + b.length * b.a

/-- y coordinate of the bone tip. -/
noncomputable def tipY (b : Bone) : ℝ := b.worldY + b.length * b.c

/-- Commands the bone loop of `renderDebug` issues for one bone,
mirroring the source: a bone of positive length gets the tapered
triangular body, its centre line and the filled pivot circle; any other
bone gets the circle with the inscribed X marker (the source condition is
`len > 0`). -/
noncomputable def boneCmds (b : Bone) : List GCmd :=
  let x := b.worldX
  let y := b.worldY
  let len := b.length
  if 0 < len then
    let tX := x + len * b.a
    let tY := y + len * b.c
    let scale := Real.sqrt (b.a * b.a + b.c * b.c)
    let pX := if 0 < scale then -(b.c / scale) * (boneBaseWidth / 2) else 0
    let pY := if 0 < scale then (b.a / scale) * (boneBaseWidth / 2) else 0
    [GCmd.lineStyle 1.5 0x00FFFF 1, GCmd.beginFill 0x00FFFF 0.25,
     GCmd.moveTo (x + pX) (y + pY), GCmd.lineTo tX tY, GCmd.lineTo (x - pX) (y - pY),
     GCmd.closePath, GCmd.endFill,
     GCmd.lineStyle 1 0x00FFFF 0.6, GCmd.moveTo x y, GCmd.lineTo tX tY,
     GCmd.lineStyle 1.5 0x00FFFF 1, GCmd.beginFill 0x000000 0.6,
     GCmd.drawCircle x y 3, GCmd.endFill]
  else
    [GCmd.lineStyle 1.5 0x00FFFF 1, GCmd.beginFill 0x00FFFF 0.1,
     GCmd.drawCircle x y 5, GCmd.endFill,
     GCmd.moveTo (x - 2.5) (y - 2.5), GCmd.lineTo (x + 2.5) (y + 2.5),
     GCmd.moveTo (x + 2.5) (y - 2.5), GCmd.lineTo (x - 2.5) (y + 2.5)]

/-- One iteration of the bone loop appends its commands to the graphics
state. -/
noncomputable def boneStep (g : List GCmd) (b : Bone) : List GCmd :=
  g ++ boneCmds b

/-- Vertex `i` of a world-vertex list (a Float32Array in the source). -/
noncomputable def vAt (wv : List (ℝ × ℝ)) (i : Nat) : ℝ × ℝ :=
  wv.getD i (0, 0)

/-- A polyline that moves to the first point and lines to the rest. -/
def polyOpen (pts : List (ℝ × ℝ)) : List GCmd :=
  match pts with
  | [] => []
  | p :: rest => GCmd.moveTo p.1 p.2 :: rest.map fun q => GCmd.lineTo q.1 q.2

/-- The first `hullLength` world vertices of a mesh. -/
noncomputable def hullPts (wv : List (ℝ × ℝ)) (hullLength : Nat) : List (ℝ × ℝ) :=
  (List.range hullLength).map fun i => vAt wv i

/-- Wireframe commands for the triangle index list of a mesh, three
indices at a time. -/
noncomputable def triCmds (wv : List (ℝ × ℝ)) : List Nat → List GCmd
  | t1 :: t2 :: t3 :: rest =>
    GCmd.moveTo (vAt wv t1).1 (vAt wv t1).2 ::
    GCmd.lineTo (vAt wv t2).1 (vAt wv t2).2 ::
    GCmd.lineTo (vAt wv t3).1 (vAt wv t3).2 ::
    GCmd.lineTo (vAt wv t1).1 (vAt wv t1).2 :: triCmds wv rest
  | _ => []

/-- Commands the slot loop of `renderDebug` issues for one slot,
dispatching on the attachment kind, each gated by its own toggle. The
bare `lineStyle 0 0 1` mirrors `graphics.lineStyle(0)` before the path
control points. -/
noncomputable def slotCmds (cfg : SpineDebugConfig) (slot : Slot) : List GCmd :=
  match slot.attachment with
  | none => []
  | some att =>
    match att with
    | .region p0 p1 p2 p3 =>
      if cfg.regions then
        [GCmd.lineStyle 1.5 0xFF8800 0.9,
         GCmd.moveTo p0.1 p0.2, GCmd.lineTo p1.1 p1.2, GCmd.lineTo p2.1 p2.2,
         GCmd.lineTo p3.1 p3.2, GCmd.lineTo p0.1 p0.2, GCmd.closePath]
      else []
    | .mesh wv hullLength triangles =>
      (if cfg.meshHull then
        if 0 < hullLength then
          [GCmd.lineStyle 2 0xFFFF00 0.9, GCmd.beginFill 0xFFFF00 0.1] ++
          polyOpen (hullPts wv hullLength) ++
          [GCmd.lineTo (vAt wv 0).1 (vAt wv 0).2, GCmd.endFill]
        else []
      else []) ++
      (if cfg.meshTriangles then GCmd.lineStyle 1 0xFF00FF 0.4 :: triCmds wv triangles else [])
    | .clipping wv =>
      if cfg.clipping then
        [GCmd.lineStyle 2 0xCC0000 1, GCmd.beginFill 0xCC0000 0.1] ++ polyOpen wv ++
        [GCmd.closePath, GCmd.endFill]
      else []
    | .path wv closed =>
      if cfg.paths then
        (GCmd.lineStyle 2 0x0000FF 1 :: polyOpen wv) ++
        (if closed then [GCmd.closePath] else []) ++
        (GCmd.lineStyle 0 0 1 :: GCmd.beginFill 0x0000FF 0.8 ::
          wv.map fun q => GCmd.drawCircle q.1 q.2 3) ++ [GCmd.endFill]
      else []
    | .boundingBox wv =>
      if cfg.boundingBoxes then
        [GCmd.lineStyle 2 0x00FF00 0.8, GCmd.beginFill 0x00FF00 0.1] ++ polyOpen wv ++
        [GCmd.closePath, GCmd.endFill]
      else []

/-- One iteration of the slot loop appends its commands. -/
noncomputable def slotStep (cfg : SpineDebugConfig) (g : List GCmd) (slot : Slot) : List GCmd :=
  g ++ slotCmds cfg slot

/-- Embedding of `renderDebug`: clear the graphics, draw every bone when
the bones toggle is set, then walk the slots. -/
noncomputable def renderDebug (cfg : SpineDebugConfig) (skeleton : Skeleton)
    (g : List GCmd) : List GCmd :=
  let g0 : List GCmd := []
  let g1 := if cfg.bones then skeleton.bones.foldl boneStep g0 else g0
  skeleton.slots.foldl (slotStep cfg) g1

/-- Concatenation of the per-element command lists. -/
def joinMap {α β : Type} (f : α → List β) (l : List α) : List β :=
  (l.map f).flatten

/-- A bone of positive length for the extractor witness. -/
noncomputable def cb : Bone := ⟨0, 0, 2, 1, 0⟩

/-- A configuration with every toggle set. -/
def cfgAll : SpineDebugConfig := ⟨true, true, true, true, true, true, true⟩

/-! ### Lemmas about the batch loop -/

/-- The sequential batch loop computes, in order, the successes and the
recorded errors of the individual items. -/
lemma processSkels_eq (files : List UFile) (pool : Pool) (l : List UFile) :
    processSkels files pool l =
      (l.filterMap (fun sf => okOf (itemOutcome files pool sf)),
       l.filterMap (fun sf => errOf (itemOutcome files pool sf))) := by
  induction l with
  | nil => rfl
  | cons sf rest ih =>
    simp only [processSkels, List.filterMap_cons]
    cases h : itemOutcome files pool sf <;> simp [h, okOf, errOf, ih]

/-- Closed form of the batch orchestrator. -/
lemma load_eq (files : List UFile) (sched : List Nat) :
    loadSpineFromFiles files sched =
      if skelFilesOf files = [] then .error noSkelMsg
      else if successesOf files sched = [] then .error (aggregateMsg (itemErrors files sched))
      else .ok (successesOf files sched) := by
  simp only [loadSpineFromFiles, processSkels_eq, List.isEmpty_iff]
  by_cases h1 : skelFilesOf files = []
  · rw [if_pos h1, if_pos h1]
  · rw [if_neg h1, if_neg h1]
    by_cases h2 : successesOf files sched = []
    · rw [if_pos h2, if_pos (show (skelFilesOf files).filterMap
        (fun sf => okOf (itemOutcome files (decodeImages files sched) sf)) = [] from h2)]
      rfl
    · rw [if_neg h2, if_neg (show ¬ (skelFilesOf files).filterMap
        (fun sf => okOf (itemOutcome files (decodeImages files sched) sf)) = [] from h2)]
      rfl

/-- A batch load that returns models returns exactly the in-order
success list of the sequential loop. -/
lemma load_ok_eq (files : List UFile) (sched : List Nat) (ms : List Model)
    (h : loadSpineFromFiles files sched = .ok ms) :
    ms = (skelFilesOf files).filterMap
      (fun sf => okOf (itemOutcome files (decodeImages files sched) sf)) := by
  rw [load_eq] at h
  by_cases h1 : skelFilesOf files = []
  · rw [if_pos h1] at h; cases h
  · rw [if_neg h1] at h
    by_cases h2 : successesOf files sched = []
    · rw [if_pos h2] at h; cases h
    · rw [if_neg h2] at h
      injection h with h
      exact h.symm

/-- A successful single assembly names the model by first-occurrence
removal of .skel from the skeleton file name. -/
lemma loadSingle_ok_name (sk af : UFile) (pool : Pool) (m : Model)
    (h : loadSingleSpine sk af pool = .ok m) :
    m.name = replFirstStr ".skel" sk.name := by
  unfold loadSingleSpine at h
  cases hr : resolvePages pool af.atlas with
  | error e => rw [hr] at h; cases h
  | ok tex =>
    rw [hr] at h
    cases hok : sk.skel.ok with
    | false => rw [hok] at h; simp at h
    | true =>
      rw [hok] at h
      simp only [if_pos] at h
      injection h with h
      rw [← h]

/-- A successful item outcome comes from a successful single assembly of
the same skeleton file. -/
lemma itemOutcome_ok (files : List UFile) (pool : Pool) (sf : UFile) (m : Model)
    (h : itemOutcome files pool sf = .ok m) :
    ∃ af, loadSingleSpine sf af pool = .ok m := by
  simp only [itemOutcome] at h
  split at h
  · cases h
  · rename_i af hf
    split at h
    · rename_i m2 hs
      injection h with h
      exact ⟨af, h ▸ hs⟩
    · cases h

/-- A list mapped through an everywhere-defined partial function keeps
its length. -/
lemma filterMap_length_all_some {α β : Type} (f : α → Option β) (l : List α)
    (h : ∀ a ∈ l, (f a).isSome = true) : (l.filterMap f).length = l.length := by
  induction l with
  | nil => rfl
  | cons a t ih =>
    cases hfa : f a with
    | none => exact absurd (hfa ▸ h a (by simp)) (by simp)
    | some b =>
      simp only [List.filterMap_cons, hfa, List.length_cons]
      rw [ih fun x hx => h x (by simp [hx])]

/-- Setting a fresh key appends the binding at the end of the map. -/
lemma mapSet_of_not_mem (m : Pool) (k : String) (v : PoolVal)
    (h : k ∉ m.map Prod.fst) : mapSet m k v = m ++ [(k, v)] := by
  induction m with
  | nil => rfl
  | cons e t ih =>
    have hne : (e.1 == k) = false := by
      simp only [List.map_cons, List.mem_cons] at h
      simp only [beq_eq_false_iff_ne, ne_eq]
      exact fun he => h (Or.inl he.symm)
    simp only [mapSet, hne, Bool.false_eq_true, if_false, List.cons_append, List.cons.injEq,
      true_and]
    exact ih fun hk => h (by simp only [List.map_cons, List.mem_cons]; exact Or.inr hk)

/-- In a duplicate-free list, the element at position `n` does not occur
earlier. -/
lemma nodup_getElem_not_mem_take {α : Type} {l : List α} (h : l.Nodup)
    {n : Nat} (hn : n < l.length) : l[n] ∉ l.take n := by
  intro hmem
  have hd : l[n] ∈ l.drop n := by
    rw [List.drop_eq_getElem_cons hn]
    exact List.mem_cons_self _ _
  exact List.disjoint_take_drop h (Nat.le_refl n) hmem hd

/-- Keys of the pool built from the first `n` in-order decode
completions: the names of the first `n` raster files. -/
lemma decode_take (files : List UFile)
    (h1 : ((imageFilesOf files).map UFile.name).Nodup)
    (h2 : ∀ f ∈ imageFilesOf files, f.img.ok = true) :
    ∀ n, n ≤ (imageFilesOf files).length →
      (decodeImages files (List.range n)).map Prod.fst =
        ((imageFilesOf files).take n).map UFile.name := by
  intro n
  induction n with
  | zero => intro _; simp [decodeImages]
  | succ n ih =>
    intro hle
    have hn : n < (imageFilesOf files).length := hle
    have hstep : decodeImages files (List.range (n + 1)) =
        mapSet (decodeImages files (List.range n)) (imageFilesOf files)[n].name
          ⟨n, (imageFilesOf files)[n].img.width, (imageFilesOf files)[n].img.height,
            (imageFilesOf files)[n].size⟩ := by
      unfold decodeImages
      rw [List.range_succ, List.foldl_append]
      simp only [List.foldl_cons, List.foldl_nil]
      rw [List.getElem?_eq_getElem hn]
      simp only [h2 (imageFilesOf files)[n] (List.getElem_mem hn), if_pos]
    have hkeys := ih (Nat.le_of_lt hn)
    have hfresh : (imageFilesOf files)[n].name ∉
        (decodeImages files (List.range n)).map Prod.fst := by
      rw [hkeys]
      have hlt : n < ((imageFilesOf files).map UFile.name).length := by simpa using hn
      have hnm := nodup_getElem_not_mem_take h1 hlt
      rw [List.getElem_map] at hnm
      rw [← List.map_take] at hnm
      exact hnm
    rw [hstep, mapSet_of_not_mem _ _ _ hfresh, List.map_append, hkeys]
    rw [List.take_succ, List.getElem?_eq_getElem hn, List.map_append]
    rfl

/-- Each page of a successfully resolved atlas contributes, in order, one
texture entry built from the pool entry the tiered lookup finds for it. -/
lemma resolvePages_ok_spec (pool : Pool) (pages : List AtlasPage) (tex : List TexEntry)
    (h : resolvePages pool pages = .ok tex) :
    tex.length = pages.length ∧
    ∀ i, (hi : i < pages.length) → ∃ e, findImage pool pages[i].path = some e ∧
      tex[i]? = some ⟨pages[i].path, e.2.width, e.2.height, sizeById pool e.2.id⟩ := by
  induction pages generalizing tex with
  | nil =>
    simp only [resolvePages] at h
    injection h with h
    subst h
    exact ⟨rfl, fun i hi => absurd hi (Nat.not_lt_zero i)⟩
  | cons p rest ih =>
    simp only [resolvePages] at h
    cases hf : findImage pool p.path with
    | none => rw [hf] at h; cases h
    | some e =>
      rw [hf] at h
      cases hr : resolvePages pool rest with
      | error msg => rw [hr] at h; cases h
      | ok l =>
        rw [hr] at h
        injection h with h
        subst h
        obtain ⟨hlen, hpt⟩ := ih l hr
        refine ⟨by simp [hlen], ?_⟩
        intro i hi
        cases i with
        | zero => exact ⟨e, by simpa using hf, by simp⟩
        | succ j =>
          have hj : j < rest.length := Nat.lt_of_succ_lt_succ hi
          obtain ⟨e2, he2, ht⟩ := hpt j hj
          exact ⟨e2, by simpa using he2, by simpa using ht⟩

/-- The bone loop is the concatenation of the per-bone command lists. -/
lemma foldl_boneStep (l : List Bone) (g : List GCmd) :
    l.foldl boneStep g = g ++ joinMap boneCmds l := by
  induction l generalizing g with
  | nil => simp [joinMap]
  | cons b t ih =>
    simp only [List.foldl_cons, boneStep, ih, joinMap, List.map_cons, List.flatten_cons,
      List.append_assoc]

/-- The slot loop is the concatenation of the per-slot command lists. -/
lemma foldl_slotStep (cfg : SpineDebugConfig) (l : List Slot) (g : List GCmd) :
    l.foldl (slotStep cfg) g = g ++ joinMap (slotCmds cfg) l := by
  induction l generalizing g with
  | nil => simp [joinMap]
  | cons sl t ih =>
    simp only [List.foldl_cons, slotStep, ih, joinMap, List.map_cons, List.flatten_cons,
      List.append_assoc]

/-- Positive-length branch of the per-bone commands, written with the
named tip and perpendicular offsets. -/
lemma boneCmds_pos (b : Bone) (hb : 0 < b.length) :
    boneCmds b =
      [GCmd.lineStyle 1.5 0x00FFFF 1, GCmd.beginFill 0x00FFFF 0.25,
       GCmd.moveTo (b.worldX + perX b) (b.worldY + perY b),
       GCmd.lineTo (tipX b) (tipY b),
       GCmd.lineTo (b.worldX - perX b) (b.worldY - perY b),
       GCmd.closePath, GCmd.endFill,
       GCmd.lineStyle 1 0x00FFFF 0.6, GCmd.moveTo b.worldX b.worldY,
       GCmd.lineTo (tipX b) (tipY b),
       GCmd.lineStyle 1.5 0x00FFFF 1, GCmd.beginFill 0x000000 0.6,
       GCmd.drawCircle b.worldX b.worldY 3, GCmd.endFill] := by
  simp only [boneCmds, perX, perY, tipX, tipY, scaleOf, if_pos hb]

/-- Zero-or-negative-length branch of the per-bone commands. -/
lemma boneCmds_zero (b : Bone) (hb : ¬ 0 < b.length) :
    boneCmds b =
      [GCmd.lineStyle 1.5 0x00FFFF 1, GCmd.beginFill 0x00FFFF 0.1,
       GCmd.drawCircle b.worldX b.worldY 5, GCmd.endFill,
       GCmd.moveTo (b.worldX - 2.5) (b.worldY - 2.5),
       GCmd.lineTo (b.worldX + 2.5) (b.worldY + 2.5),
       GCmd.moveTo (b.worldX + 2.5) (b.worldY - 2.5),
       GCmd.lineTo (b.worldX - 2.5) (b.worldY + 2.5)] := by
  simp only [boneCmds, if_neg hb]

/-- The half-width offset is perpendicular to the bone direction. -/
lemma per_orthogonal (b : Bone) : perX b * b.a + perY b * b.c = 0 := by
  unfold perX perY
  by_cases hs : 0 < scaleOf b
  · rw [if_pos hs, if_pos hs]; ring
  · rw [if_neg hs, if_neg hs]; ring

/-- When the transform scale is positive the offset has length exactly
half the base width (the direction vector is normalized by the scale). -/
lemma per_norm (b : Bone) (hs : 0 < scaleOf b) :
    perX b ^ 2 + perY b ^ 2 = (boneBaseWidth / 2) ^ 2 := by
  unfold perX perY
  rw [if_pos hs, if_pos hs]
  have hsq : scaleOf b ^ 2 = b.a * b.a + b.c * b.c := by
    unfold scaleOf
    exact Real.sq_sqrt (add_nonneg (mul_self_nonneg b.a) (mul_self_nonneg b.c))
  have hne : scaleOf b ≠ 0 := ne_of_gt hs
  field_simp
  nlinarith [hsq]

/-! ### Claim theorems -/

/-- C1 (counterexample): the resolver does not give exact key equality
priority over the whole pool. For the pool holding ahead.png before
head.png, resolving the path head.png returns the earlier entry, which
only suffix-matches, and not the entry whose key equals the path. -/
theorem findImage_exact_shadowed_counterexample :
    ("head.png", (⟨1, 50, 50, 500⟩ : PoolVal)) ∈ c1pool ∧
    findImage c1pool "head.png" = some ("ahead.png", ⟨0, 30, 30, 300⟩) ∧
    findImage c1pool "head.png" ≠ some ("head.png", ⟨1, 50, 50, 500⟩) := by
  refine ⟨by decide, by decide, by decide⟩

/-- C1 (amended): exact and suffix matching form one combined first pass
over the pool in insertion order, with the substring fallback as a
second pass; resolving a path that occurs as a key succeeds in the first
pass, and returns that exact entry precisely when no earlier-inserted
entry exact-or-suffix matches the path. -/
theorem findImage_combined_first_pass (pre post : Pool) (v : PoolVal) (path : String)
    (h : ∀ e ∈ pre, matches1 e.1 path = false) :
    findImage (pre ++ (path, v) :: post) path = some (path, v) := by
  unfold findImage
  have hfind : (pre ++ (path, v) :: post).find? (fun e => matches1 e.1 path) = some (path, v) := by
    induction pre with
    | nil => simp [List.find?, matches1]
    | cons a t ih =>
      have ha : matches1 a.1 path = false := h a (List.mem_cons_self a t)
      simp only [List.cons_append, List.find?, ha]
      exact ih fun e he => h e (List.mem_cons_of_mem a he)
  rw [hfind]

/-- Witness for the amended C1 theorem at a concrete pool. -/
theorem findImage_combined_first_pass_witness :
    findImage (c1pre ++ ("head.png", ⟨1, 50, 50, 500⟩) :: []) "head.png" =
      some ("head.png", ⟨1, 50, 50, 500⟩) :=
  findImage_combined_first_pass c1pre [] ⟨1, 50, 50, 500⟩ "head.png" (by decide)

/-- C2: per-item assembly failures never escape the batch loader. If at
least one skeleton/atlas pair assembles successfully, `loadSpineFromFiles`
returns exactly the list of successful models, without an error and with
the recorded per-item error messages absent from the result. -/
theorem loadBatch_partial_success (files : List UFile) (sched : List Nat)
    (h : successesOf files sched ≠ []) :
    loadSpineFromFiles files sched = .ok (successesOf files sched) := by
  have h1 : skelFilesOf files ≠ [] := by
    intro he
    exact h (by simp [successesOf, he])
  rw [load_eq, if_neg h1, if_neg h]

/-- Witness for C2 at the batch of the specification example: a.skel and
b.skel with both atlases present, where b.atlas references a texture
matching no preloaded image; exactly the model a is returned. -/
theorem loadBatch_partial_success_witness :
    loadSpineFromFiles c2files [0] = .ok (successesOf c2files [0]) ∧
    successesOf c2files [0] = [c2model] :=
  ⟨loadBatch_partial_success c2files [0] (by decide), by decide⟩

/-- C3: a batch containing zero skeleton files fails immediately with the
missing-skeleton-file error, whatever other files are present. -/
theorem loadBatch_no_skel_error (files : List UFile) (sched : List Nat)
    (h : skelFilesOf files = []) :
    loadSpineFromFiles files sched = .error noSkelMsg := by
  rw [load_eq, if_pos h]

/-- Witness for C3 at a batch holding an atlas and a raster file. -/
theorem loadBatch_no_skel_error_witness :
    loadSpineFromFiles c3files [0] = .error noSkelMsg :=
  loadBatch_no_skel_error c3files [0] (by decide)

/-- C4 (counterexample): the iteration order of the preloaded-image pool
is decode-completion order, not submission order. With both raster files
decoding successfully but the second completing first (a valid
completion schedule), the pool keys are reversed with respect to
submission order. -/
theorem decodeImages_order_counterexample :
    List.Perm [1, 0] (List.range (imageFilesOf c4files).length) ∧
    (decodeImages c4files [1, 0]).map Prod.fst = ["b.png", "a.png"] ∧
    (imageFilesOf c4files).map UFile.name = ["a.png", "b.png"] ∧
    (["b.png", "a.png"] : List String) ≠ ["a.png", "b.png"] := by
  refine ⟨by decide, by decide, by decide, by decide⟩

/-- C4 (amended): the pool's iteration order equals decode-completion
order; in particular, when every decode succeeds, the raster names are
pairwise distinct and completions arrive in submission order, the
mapping's iteration order equals the order the files were submitted. -/
theorem decodeImages_inorder_keys (files : List UFile)
    (h1 : ((imageFilesOf files).map UFile.name).Nodup)
    (h2 : ∀ f ∈ imageFilesOf files, f.img.ok = true) :
    (decodeImages files (inOrderSched files)).map Prod.fst =
      (imageFilesOf files).map UFile.name := by
  have := decode_take files h1 h2 (imageFilesOf files).length (Nat.le_refl _)
  rw [inOrderSched]
  rw [this, List.take_length]

/-- Witness for the amended C4 theorem at two distinct raster files. -/
theorem decodeImages_inorder_keys_witness :
    (decodeImages c4wfiles (inOrderSched c4wfiles)).map Prod.fst =
      (imageFilesOf c4wfiles).map UFile.name :=
  decodeImages_inorder_keys c4wfiles (by decide) (by decide)

/-- C5: a successfully assembled model's textureInfo holds one entry per
atlas page, each built from the pool entry the tiered lookup finds for
that page's path; moreover every page of a successful assembly has a
backing preloaded image, so the declared-dimensions fallback case of the
claim never occurs in a returned model. -/
theorem textureInfo_per_page (sk af : UFile) (pool : Pool) (m : Model)
    (h : loadSingleSpine sk af pool = .ok m) :
    m.textureInfo.length = af.atlas.length ∧
    (∀ p ∈ af.atlas, (findImage pool p.path).isSome = true) ∧
    ∀ i, (hi : i < af.atlas.length) → ∃ e, findImage pool (af.atlas[i].path) = some e ∧
      m.textureInfo[i]? = some ⟨af.atlas[i].path, e.2.width, e.2.height, sizeById pool e.2.id⟩ := by
  unfold loadSingleSpine at h
  cases hr : resolvePages pool af.atlas with
  | error e => rw [hr] at h; cases h
  | ok tex =>
    rw [hr] at h
    cases hok : sk.skel.ok with
    | false => rw [hok] at h; simp at h
    | true =>
      rw [hok] at h
      simp only [if_pos] at h
      injection h with h
      obtain ⟨hlen, hpt⟩ := resolvePages_ok_spec pool af.atlas tex hr
      have htex : m.textureInfo = tex := by rw [← h]
      refine ⟨by rw [htex, hlen], ?_, ?_⟩
      · intro p hp
        obtain ⟨i, hi, hpi⟩ := List.mem_iff_getElem.mp hp
        obtain ⟨e, he, _⟩ := hpt i hi
        rw [← hpi]
        simp [he]
      · intro i hi
        obtain ⟨e, he, ht⟩ := hpt i hi
        exact ⟨e, he, by rw [htex]; exact ht⟩

/-- Witness for C5 at a one-page atlas backed by a one-image pool. -/
theorem textureInfo_per_page_witness :
    c5model.textureInfo.length = c5atlas.atlas.length ∧
    (findImage c5pool (AtlasPage.path ⟨"page.png", 1, 2⟩)).isSome = true :=
  ⟨(textureInfo_per_page c5skel c5atlas c5pool c5model (by rfl)).1,
   (textureInfo_per_page c5skel c5atlas c5pool c5model (by rfl)).2.1 ⟨"page.png", 1, 2⟩ (by decide)⟩

/-- C6 (counterexample): the returned model's name is not always the
pairing base name. For the skeleton file a.skelly.skel (whose pair
assembles successfully), the base name used for pairing is a.skelly but
the returned model is named aly.skel. -/
theorem model_name_counterexample :
    loadSpineFromFiles c6files [] = .ok [c6model] ∧
    c6model.name = "aly.skel" ∧
    stripEnd ".skel" "a.skelly.skel" = "a.skelly" ∧
    c6model.name ≠ stripEnd ".skel" "a.skelly.skel" := by
  refine ⟨by rfl, by decide, by decide, by decide⟩

/-- C6 (amended): every model returned by the batch loader takes its name
from its skeleton file by removing the FIRST occurrence of the substring
.skel, which coincides with the trailing-extension-stripped base name
only when .skel does not occur earlier in the file name. -/
theorem model_name_first_occurrence (files : List UFile) (sched : List Nat) (ms : List Model)
    (h : loadSpineFromFiles files sched = .ok ms) :
    ∀ m ∈ ms, ∃ sf, sf ∈ files ∧ sf.extension = "skel" ∧
      m.name = replFirstStr ".skel" sf.name := by
  intro m hm
  rw [load_ok_eq files sched ms h] at hm
  obtain ⟨sf, hsf, hok⟩ := List.mem_filterMap.mp hm
  have hsf2 : sf ∈ files ∧ sf.extension = "skel" := by
    have := List.mem_filter.mp hsf
    exact ⟨this.1, by simpa using this.2⟩
  cases hio : itemOutcome files (decodeImages files sched) sf with
  | error e => rw [hio] at hok; cases hok
  | ok m2 =>
    rw [hio] at hok
    injection hok with hok
    obtain ⟨af, haf⟩ := itemOutcome_ok files (decodeImages files sched) sf m2 hio
    exact ⟨sf, hsf2.1, hsf2.2, by rw [← hok]; exact loadSingle_ok_name sf af _ m2 haf⟩

/-- Witness for the amended C6 theorem at an ordinary one-pair batch. -/
theorem model_name_first_occurrence_witness :
    ∃ sf, sf ∈ c6wfiles ∧ sf.extension = "skel" ∧
      c6wmodel.name = replFirstStr ".skel" sf.name :=
  model_name_first_occurrence c6wfiles [] [c6wmodel] (by rfl) c6wmodel (by decide)

/-- C8: when every skeleton/atlas pair fails, the batch loader fails with
the aggregate error — the newline join of the recorded per-item messages,
or the generic no-models message when no error was recorded — and every
skeleton file contributed exactly one recorded message. -/
theorem loadBatch_aggregate_error (files : List UFile) (sched : List Nat)
    (h1 : skelFilesOf files ≠ [])
    (h2 : successesOf files sched = []) :
    loadSpineFromFiles files sched = .error (aggregateMsg (itemErrors files sched)) ∧
    (itemErrors files sched).length = (skelFilesOf files).length := by
  refine ⟨by rw [load_eq, if_neg h1, if_pos h2], ?_⟩
  have hall : ∀ sf ∈ skelFilesOf files,
      okOf (itemOutcome files (decodeImages files sched) sf) = none :=
    List.filterMap_eq_nil_iff.mp h2
  apply filterMap_length_all_some
  intro sf hsf
  cases hio : itemOutcome files (decodeImages files sched) sf with
  | error e => simp [errOf]
  | ok m2 => exact absurd (hio ▸ hall sf hsf) (by simp [okOf])

/-- Witness for C8 at a batch whose only skeleton file has no atlas. -/
theorem loadBatch_aggregate_error_witness :
    loadSpineFromFiles c8files [] = .error (aggregateMsg (itemErrors c8files [])) ∧
    (itemErrors c8files []).length = (skelFilesOf c8files).length :=
  loadBatch_aggregate_error c8files [] (by decide) (by decide)

/-- C10: the models of a successful batch load are exactly the successes
of the skeleton files taken in input order — the loop processes skeleton
files sequentially, appends each success, and skips failed pairs without
disturbing the relative order of the others. -/
theorem loadBatch_order_preserved (files : List UFile) (sched : List Nat) (ms : List Model)
    (h : loadSpineFromFiles files sched = .ok ms) :
    ms = (skelFilesOf files).filterMap
      (fun sf => okOf (itemOutcome files (decodeImages files sched) sf)) :=
  load_ok_eq files sched ms h

/-- Witness for C10 at a batch where the pair a succeeds and the pair b
lacks an atlas. -/
theorem loadBatch_order_preserved_witness :
    [c10model] = (skelFilesOf c10files).filterMap
      (fun sf => okOf (itemOutcome c10files (decodeImages c10files [0]) sf)) :=
  loadBatch_order_preserved c10files [0] [c10model] (by rfl)

/-- C7: bone geometry appears in the extractor output exactly when the
bones toggle is set, and the per-bone commands dispatch on length: a
positive-length bone yields the tapered triangular body from origin to
tip plus the small filled pivot circle, with the half-width offset
perpendicular to the direction vector and, for a positive transform
scale, of length exactly half the base width; a bone that is not of
positive length yields the circle with the inscribed X marker. -/
theorem renderDebug_bones (cfg : SpineDebugConfig) (s : Skeleton) (g : List GCmd) :
    (cfg.bones = false → renderDebug cfg s g = joinMap (slotCmds cfg) s.slots) ∧
    (cfg.bones = true → renderDebug cfg s g =
      joinMap boneCmds s.bones ++ joinMap (slotCmds cfg) s.slots) ∧
    (∀ b : Bone, 0 < b.length →
      boneCmds b =
        [GCmd.lineStyle 1.5 0x00FFFF 1, GCmd.beginFill 0x00FFFF 0.25,
         GCmd.moveTo (b.worldX + perX b) (b.worldY + perY b),
         GCmd.lineTo (tipX b) (tipY b),
         GCmd.lineTo (b.worldX - perX b) (b.worldY - perY b),
         GCmd.closePath, GCmd.endFill,
         GCmd.lineStyle 1 0x00FFFF 0.6, GCmd.moveTo b.worldX b.worldY,
         GCmd.lineTo (tipX b) (tipY b),
         GCmd.lineStyle 1.5 0x00FFFF 1, GCmd.beginFill 0x000000 0.6,
         GCmd.drawCircle b.worldX b.worldY 3, GCmd.endFill] ∧
      tipX b = b.worldX + b.length * b.a ∧
      tipY b = b.worldY + b.length * b.c ∧
      perX b * b.a + perY b * b.c = 0 ∧
      (0 < scaleOf b → perX b ^ 2 + perY b ^ 2 = (boneBaseWidth / 2) ^ 2)) ∧
    (∀ b : Bone, b.length = 0 →
      boneCmds b =
        [GCmd.lineStyle 1.5 0x00FFFF 1, GCmd.beginFill 0x00FFFF 0.1,
         GCmd.drawCircle b.worldX b.worldY 5, GCmd.endFill,
         GCmd.moveTo (b.worldX - 2.5) (b.worldY - 2.5),
         GCmd.lineTo (b.worldX + 2.5) (b.worldY + 2.5),
         GCmd.moveTo (b.worldX + 2.5) (b.worldY - 2.5),
         GCmd.lineTo (b.worldX - 2.5) (b.worldY + 2.5)]) := by
  refine ⟨?_, ?_, ?_, ?_⟩
  · intro hb
    simp only [renderDebug, hb, Bool.false_eq_true, if_false, foldl_slotStep, List.nil_append]
  · intro hb
    simp only [renderDebug, hb, if_true, foldl_boneStep, foldl_slotStep, List.nil_append]
  · intro b hb
    exact ⟨boneCmds_pos b hb, rfl, rfl, per_orthogonal b, per_norm b⟩
  · intro b hb
    exact boneCmds_zero b (by rw [hb]; exact lt_irrefl 0)

/-- Witness for C7: the positive-length dispatch applied to a concrete
bone of length two. -/
theorem renderDebug_bones_witness :
    boneCmds cb =
      [GCmd.lineStyle 1.5 0x00FFFF 1, GCmd.beginFill 0x00FFFF 0.25,
       GCmd.moveTo (cb.worldX + perX cb) (cb.worldY + perY cb),
       GCmd.lineTo (tipX cb) (tipY cb),
       GCmd.lineTo (cb.worldX - perX cb) (cb.worldY - perY cb),
       GCmd.closePath, GCmd.endFill,
       GCmd.lineStyle 1 0x00FFFF 0.6, GCmd.moveTo cb.worldX cb.worldY,
       GCmd.lineTo (tipX cb) (tipY cb),
       GCmd.lineStyle 1.5 0x00FFFF 1, GCmd.beginFill 0x000000 0.6,
       GCmd.drawCircle cb.worldX cb.worldY 3, GCmd.endFill] ∧
    perX cb * cb.a + perY cb * cb.c = 0 :=
  ⟨((renderDebug_bones cfgAll ⟨[cb], []⟩ []).2.2.1 cb (by norm_num [cb])).1,
   ((renderDebug_bones cfgAll ⟨[cb], []⟩ []).2.2.1 cb (by norm_num [cb])).2.2.2.1⟩

/-- C9: the extractor is deterministic and stateless across invocations:
its output does not depend on the incoming graphics state (the call
starts by clearing it), so calling it twice in succession on an
unchanged pose and unchanged toggles yields the identical draw set. The
embedding is a pure function of the pose, which is the image of the
source reading the pose without mutating it (world vertices are written
into arrays allocated fresh per call). -/
theorem renderDebug_idempotent (cfg : SpineDebugConfig) (s : Skeleton) (g g2 : List GCmd) :
    renderDebug cfg s (renderDebug cfg s g) = renderDebug cfg s g ∧
    renderDebug cfg s g2 = renderDebug cfg s g :=
  ⟨rfl, rfl⟩

end MSP
